import Mathlib

/-!
Verification development for the data-cleanse pipeline
(`src/main.py`): a five-stage tabular pipeline
(load → standardize column names → cleanse → validate → save)
whose orchestrator absorbs every stage failure.

The embedding models a pandas DataFrame as a `Table`: an ordered list of
column names, a parallel list of per-column dtypes (pandas tracks dtype
statefully, which is observable in `validate_data`), and a list of rows of
cells.  Machine floats are modelled as rationals; `NaN` (the missing
marker) is the distinguished cell `Cell.NA`.
-/

deriving instance DecidableEq for Except

namespace DataClean

/-- Value of one cell: a number (pandas int64/float64 entry, modelled as a
rational), a string, or the missing marker (NaN). -/
inductive Cell where
  | Num (q : ℚ)
  | Str (s : String)
  | NA
deriving DecidableEq, Repr

/-- Dtype of a column, as pandas tracks it: `DInt` for int64, `DFloat` for
float64, `DObj` for object. -/
inductive Dtype where
  | DInt
  | DFloat
  | DObj
deriving DecidableEq, Repr

/-- The in-memory table flowing through the pipeline: ordered column names,
per-column dtypes (aligned with `cols`), and rows of cells (each row aligned
with `cols`). -/
structure Table where
  cols : List String
  dtypes : List Dtype
  rows : List (List Cell)
deriving DecidableEq, Repr

/-- Cells of column `j`, read positionally down the rows (missing positions
read as `NA`). -/
def getColCells (t : Table) (j : Nat) : List Cell :=
  t.rows.map (fun r => r.getD j Cell.NA)

/-- Dtype of column `j` (defaulting to object). -/
def getColDtype (t : Table) (j : Nat) : Dtype :=
  t.dtypes.getD j Dtype.DObj

/-- Python str.strip character class: the six ASCII whitespace characters. -/
def pyIsSpace (c : Char) : Bool :=
  c == ' ' || c == '\t' || c == '\n' || c == '\r' || c == '\x0b' || c == '\x0c'

/-- Model of Python str.strip: drop leading and trailing whitespace. -/
def pyStripList (l : List Char) : List Char :=
  ((l.dropWhile pyIsSpace).reverse.dropWhile pyIsSpace).reverse

/-- The ASCII uppercase/lowercase letter pairs. -/
def upperLower : List (Char × Char) :=
  [('A', 'a'), ('B', 'b'), ('C', 'c'), ('D', 'd'), ('E', 'e'), ('F', 'f'),
   ('G', 'g'), ('H', 'h'), ('I', 'i'), ('J', 'j'), ('K', 'k'), ('L', 'l'),
   ('M', 'm'), ('N', 'n'), ('O', 'o'), ('P', 'p'), ('Q', 'q'), ('R', 'r'),
   ('S', 's'), ('T', 't'), ('U', 'u'), ('V', 'v'), ('W', 'w'), ('X', 'x'),
   ('Y', 'y'), ('Z', 'z')]

/-- Model of Python str.lower on one character (ASCII letters). -/
def pyLowerChar (c : Char) : Char :=
  ((upperLower.find? (fun p => p.1 == c)).map Prod.snd).getD c

/-- Model of Python str.replace of a space by an underscore, per character. -/
def pyReplChar (c : Char) : Char :=
  if c == ' ' then '_' else c

/-- The per-character action of lower-then-replace. -/
def pyLowRepl (c : Char) : Char := pyReplChar (pyLowerChar c)

/-- Model of the column-name transformation of `standardize_column_names`:
`col.strip().lower().replace(' ', '_')`. -/
def standardizeName (s : String) : String :=
  String.mk (((pyStripList s.data).map pyLowerChar).map pyReplChar)

/-- `standardize_column_names` (src/main.py:29-37): rewrites every column
name with `standardizeName`; cell data and dtypes untouched. -/
def standardize_column_names (t : Table) : Table :=
  { t with cols := t.cols.map standardizeName }

example : standardizeName " Name " = "name" := by decide
example : standardizeName " Age " = "age" := by decide
example : standardizeName "First Name" = "first_name" := by decide

/-- Error taxonomy of the pipeline, mirroring the exceptions of
src/main.py: a missing input file, a malformed delimited file, an empty
input, a `ValueError` raised by `validate_data` with its message, and an
I/O failure of the write in `save_data` (unwritable path, permissions,
disk full). -/
inductive PipeErr where
  | notFound (path : String)
  | parseErr
  | emptyData
  | validationError (msg : String)
  | unknownIO
deriving DecidableEq, Repr

/-- Split a character list at every occurrence of a separator. -/
def splitCells (sep : Char) : List Char → List (List Char)
  | [] => [[]]
  | c :: cs =>
    let r := splitCells sep cs
    if c == sep then [] :: r
    else
      match r with
      | [] => [[c]]
      | f :: rest => (c :: f) :: rest

/-- Numeric value of a digit string (caller checks the digits). -/
def digitsNat (l : List Char) : Nat :=
  l.foldl (fun a c => a * 10 + (c.toNat - 48)) 0

/-- Parse an optionally signed integer literal, as the pandas CSV reader
accepts for an int64 column. -/
def parseIntCell : List Char → Option Int
  | '-' :: rest =>
    if rest ≠ [] ∧ rest.all Char.isDigit then some (-(digitsNat rest : Int)) else none
  | l =>
    if l ≠ [] ∧ l.all Char.isDigit then some ((digitsNat l : Int)) else none

/-- Parse an unsigned decimal literal (digits, optional point, digits). -/
def parsePosRat (l : List Char) : Option ℚ :=
  let ip := l.takeWhile Char.isDigit
  let rest := l.dropWhile Char.isDigit
  match rest with
  | [] => if ip.isEmpty then none else some ((digitsNat ip : ℚ))
  | '.' :: fr =>
    if fr.all Char.isDigit && !(ip.isEmpty && fr.isEmpty) then
      some ((digitsNat ip : ℚ) + (digitsNat fr : ℚ) / ((10 : ℚ) ^ fr.length))
    else none
  | _ => none

/-- Parse an optionally signed decimal literal, as the pandas CSV reader
accepts for a float64 column. -/
def parseRatCell : List Char → Option ℚ
  | '-' :: rest => (parsePosRat rest).map Neg.neg
  | l => parsePosRat l

/-- Cell of an int64 column from a raw field. -/
def toCellInt (f : List Char) : Cell :=
  match parseIntCell f with
  | some n => Cell.Num (n : ℚ)
  | none => Cell.NA

/-- Cell of a float64 column from a raw field (an empty field is NaN). -/
def toCellFloat (f : List Char) : Cell :=
  if f.isEmpty then Cell.NA
  else
    match parseRatCell f with
    | some q => Cell.Num q
    | none => Cell.NA

/-- Cell of an object column from a raw field (an empty field is NaN). -/
def toCellObj (f : List Char) : Cell :=
  if f.isEmpty then Cell.NA else Cell.Str (String.mk f)

/-- Per-column type inference of the pandas CSV reader: all fields integer
literals gives int64; all fields numeric literals or empty gives float64
(an all-empty column is float64); anything else is an object column whose
non-empty fields stay strings. -/
def inferColumn (fields : List (List Char)) : Dtype × List Cell :=
  if fields = [] then (Dtype.DObj, [])
  else if fields.all (fun f => (parseIntCell f).isSome) then
    (Dtype.DInt, fields.map toCellInt)
  else if fields.all (fun f => f.isEmpty || (parseRatCell f).isSome) then
    (Dtype.DFloat, fields.map toCellFloat)
  else (Dtype.DObj, fields.map toCellObj)

/-- Model of `pd.read_csv` on in-memory content: first non-blank line is
the header, later non-blank lines are data rows; a data row with more
fields than the header is a parse failure, a shorter row is padded with
NaN; per-column dtypes and cells come from `inferColumn`.  (Quoting,
escapes and CRLF endings are outside the model.) -/
def parseCsv (content : String) : Except PipeErr Table :=
  let lines := (splitCells '\n' content.data).filter (fun l => l ≠ [])
  match lines with
  | [] => Except.error PipeErr.emptyData
  | header :: dataLines =>
    let names := (splitCells ',' header).map (fun f => String.mk f)
    let width := names.length
    let rawRows := dataLines.map (splitCells ',')
    if rawRows.any (fun r => width < r.length) then Except.error PipeErr.parseErr
    else
      let columns := (List.range width).map
        (fun j => inferColumn (rawRows.map (fun r => r.getD j [])))
      Except.ok
        { cols := names
          dtypes := columns.map Prod.fst
          rows := (List.range rawRows.length).map
            (fun i => columns.map (fun col => col.2.getD i Cell.NA)) }

/-- `load_data` (src/main.py:13-27): reads the file at `path` from the
file system `fs` (a map from paths to contents) with `pd.read_csv`; a
missing path raises `FileNotFoundError`; every failure is re-raised to the
caller. -/
def load_data (fs : String → Option String) (path : String) : Except PipeErr Table :=
  match fs path with
  | none => Except.error (PipeErr.notFound path)
  | some content => parseCsv content

/-- Numeric dtypes are int64 and float64. -/
def isNumDtype (d : Dtype) : Bool :=
  d == Dtype.DInt || d == Dtype.DFloat

/-- The non-missing numeric values of column `j`. -/
def colNumVals (t : Table) (j : Nat) : List ℚ :=
  (getColCells t j).filterMap
    (fun c => match c with | Cell.Num q => some q | _ => none)

/-- Median as pandas computes it: middle element of the sorted values, or
the mean of the two middle elements for an even count. -/
def median (l : List ℚ) : ℚ :=
  let s := l.insertionSort (fun a b => a ≤ b)
  if l.length % 2 = 1 then s.getD (l.length / 2) 0
  else (s.getD (l.length / 2 - 1) 0 + s.getD (l.length / 2) 0) / 2

/-- The fill series of `data.median(numeric_only=True)`: for each column
position, the median of its non-missing values when the column is numeric
and has at least one non-missing value (a NaN median fills nothing). -/
def tableMeds (t : Table) : List (Option ℚ) :=
  (List.range t.cols.length).map
    (fun j =>
      if isNumDtype (getColDtype t j) = true ∧ ¬ colNumVals t j = [] then
        some (median (colNumVals t j))
      else none)

/-- Fill one cell from the fill series: only a missing cell with an
available fill value changes. -/
def fillCellMed (m : Option ℚ) (c : Cell) : Cell :=
  match c, m with
  | Cell.NA, some q => Cell.Num q
  | c, _ => c

/-- Fill one row positionally from the fill series. -/
def fillRowMed : List (Option ℚ) → List Cell → List Cell
  | _, [] => []
  | [], cs => cs
  | m :: ms, c :: cs => fillCellMed m c :: fillRowMed ms cs

/-- First fillna pass of `cleanse_data` (src/main.py:43):
`data.fillna(data.median(numeric_only=True))`.  Dtypes are unchanged
(pandas does not downcast on fillna). -/
def fillMedianTable (t : Table) : Table :=
  { t with rows := t.rows.map (fillRowMed (tableMeds t)) }

/-- Whether column `j` still has a missing cell. -/
def colHadNA (t : Table) (j : Nat) : Bool :=
  (getColCells t j).any (fun c => c == Cell.NA)

/-- Second fillna pass cell action: NaN becomes the empty string. -/
def fillEmptyCell (c : Cell) : Cell :=
  match c with
  | Cell.NA => Cell.Str ""
  | c => c

/-- Second fillna pass of `cleanse_data` (src/main.py:44):
`data.fillna('')`.  A column that still held NaN becomes an object
column. -/
def fillEmptyTable (t : Table) : Table :=
  { cols := t.cols
    dtypes := (List.range t.cols.length).map
      (fun j => if colHadNA t j = true then Dtype.DObj else getColDtype t j)
    rows := t.rows.map (fun r => r.map fillEmptyCell) }

/-- Drop later rows equal to an earlier row, keeping first occurrences in
order (`DataFrame.drop_duplicates`). -/
def dedupKeepFirst : List (List Cell) → List (List Cell) → List (List Cell)
  | _, [] => []
  | seen, r :: rs =>
    if r ∈ seen then dedupKeepFirst seen rs
    else r :: dedupKeepFirst (r :: seen) rs

/-- `data.drop_duplicates(inplace=True)` (src/main.py:45). -/
def drop_duplicates (t : Table) : Table :=
  { t with rows := dedupKeepFirst [] t.rows }

/-- `cleanse_data` (src/main.py:39-50): median-fill numeric columns, fill
remaining missing cells with the empty string, then drop duplicate rows. -/
def cleanse_data (t : Table) : Table :=
  drop_duplicates (fillEmptyTable (fillMedianTable t))

/-- Index of the first column named "age", modelling
`'age' in data.columns` followed by `data['age']`. -/
def findAge : List String → Option Nat
  | [] => none
  | c :: cs => if c = "age" then some 0 else (findAge cs).map (fun j => j + 1)

/-- Message of the age type rule of `validate_data`. -/
def ageTypeMsg : String := "Age column must be integer type"

/-- Message of the age range rule of `validate_data`. -/
def ageNegMsg : String := "Age column contains negative values"

/-- Whether a cell is a negative number (`data['age'] < 0` per entry). -/
def cellNeg (c : Cell) : Bool :=
  match c with
  | Cell.Num q => q < 0
  | _ => false

/-- `validate_data` (src/main.py:52-70): when an "age" column exists, its
dtype must be int64 (`np.issubdtype(..., np.integer)`), checked first; then
no entry may be negative.  The first failing rule raises `ValueError` with
its message; the table is never mutated. -/
def validate_data (t : Table) : Except PipeErr Unit :=
  match findAge t.cols with
  | none => Except.ok ()
  | some j =>
    if ¬ getColDtype t j = Dtype.DInt then
      Except.error (PipeErr.validationError ageTypeMsg)
    else if (getColCells t j).any cellNeg then
      Except.error (PipeErr.validationError ageNegMsg)
    else Except.ok ()

/-- `save_data` (src/main.py:72-79): writes the table to the output path
with `to_csv`.  The write can fail (unwritable path, permissions, disk
full); `writable` says which paths accept the write.  On success the
path/table pair reaches the file system; on failure the error is logged
and re-raised to the caller. -/
def save_data (writable : String → Bool) (t : Table) (path : String) :
    Except PipeErr (String × Table) :=
  if writable path then Except.ok (path, t) else Except.error PipeErr.unknownIO

/-- The five pipeline stages, in orchestrator order. -/
inductive Stage where
  | load
  | standardize
  | cleanse
  | validate
  | save
deriving DecidableEq, Repr

/-- Observable outcome of one orchestrator run: which stages ran, what was
written to the output path, and the pipeline-level error record that
`logging.error` received when a stage raised. -/
structure PipelineResult where
  invoked : List Stage
  saved : Option (String × Table)
  logged : Option PipeErr
deriving DecidableEq, Repr

/-- `process_pipeline` (src/main.py:81-91): runs the five stages in order
inside one try block; the first stage to raise ends the run, its error is
logged and absorbed (never re-raised), and no later stage runs. -/
def process_pipeline (fs : String → Option String) (writable : String → Bool)
    (input output : String) : PipelineResult :=
  match load_data fs input with
  | Except.error e => ⟨[Stage.load], none, some e⟩
  | Except.ok d0 =>
    let d1 := standardize_column_names d0
    let d2 := cleanse_data d1
    match validate_data d2 with
    | Except.error e =>
      ⟨[Stage.load, Stage.standardize, Stage.cleanse, Stage.validate], none, some e⟩
    | Except.ok _ =>
      match save_data writable d2 output with
      | Except.error e =>
        ⟨[Stage.load, Stage.standardize, Stage.cleanse, Stage.validate, Stage.save],
          none, some e⟩
      | Except.ok r =>
        ⟨[Stage.load, Stage.standardize, Stage.cleanse, Stage.validate, Stage.save],
          some r, none⟩

/-- Whether a cell is an int64 entry (an integral number). -/
def cellIsIntB (c : Cell) : Bool :=
  match c with
  | Cell.Num q => q.den == 1
  | _ => false

/-- Whether a cell can live in a float64 column (a number or NaN). -/
def cellIsNumOrNA (c : Cell) : Bool :=
  match c with
  | Cell.Num _ => true
  | Cell.NA => true
  | Cell.Str _ => false

/-- Well-formed table, as pandas maintains it: dtypes and rows aligned
with the column list, distinct column names (`read_csv` mangles duplicate
headers), int64 columns hold only integers (never NaN), float64 columns
hold only numbers or NaN. -/
def WF (t : Table) : Prop :=
  t.dtypes.length = t.cols.length ∧
  (∀ r ∈ t.rows, r.length = t.cols.length) ∧
  t.cols.Nodup ∧
  ∀ j < t.cols.length,
    (getColDtype t j = Dtype.DInt → (getColCells t j).all cellIsIntB = true) ∧
    (getColDtype t j = Dtype.DFloat → (getColCells t j).all cellIsNumOrNA = true)

theorem dedupKeepFirst_sublist (seen l : List (List Cell)) :
    (dedupKeepFirst seen l).Sublist l := by
  induction l generalizing seen with
  | nil => simp [dedupKeepFirst]
  | cons r rs ih =>
    simp only [dedupKeepFirst]
    split
    · exact (ih seen).trans (List.sublist_cons_self r rs)
    · exact List.Sublist.cons₂ r (ih (r :: seen))

theorem dedupKeepFirst_nodup (l : List (List Cell)) :
    ∀ seen, (dedupKeepFirst seen l).Nodup ∧
      ∀ x ∈ dedupKeepFirst seen l, x ∉ seen := by
  induction l with
  | nil => intro seen; simp [dedupKeepFirst]
  | cons r rs ih =>
    intro seen
    simp only [dedupKeepFirst]
    split
    · exact ih seen
    · rename_i hr
      obtain ⟨h1, h2⟩ := ih (r :: seen)
      refine ⟨List.nodup_cons.mpr ⟨fun hmem => (h2 r hmem) (List.mem_cons_self r seen), h1⟩, ?_⟩
      intro x hx hxs
      rcases List.mem_cons.mp hx with rfl | hx2
      · exact hr hxs
      · exact h2 x hx2 (List.mem_cons_of_mem _ hxs)

/-- C3: after `cleanse_data`, no cell of the result is the missing marker,
and no two distinct rows of the result are cell-wise identical (the row
list has no duplicates). -/
theorem cleanse_no_missing_no_dups (t : Table) :
    (∀ r ∈ (cleanse_data t).rows, ∀ c ∈ r, ¬ c = Cell.NA) ∧
    (cleanse_data t).rows.Nodup := by
  constructor
  · intro r hr c hc
    have hsub := dedupKeepFirst_sublist [] (fillEmptyTable (fillMedianTable t)).rows
    have hr2 : r ∈ (fillEmptyTable (fillMedianTable t)).rows := hsub.subset hr
    simp only [fillEmptyTable, List.mem_map] at hr2
    obtain ⟨r0, _, rfl⟩ := hr2
    simp only [List.mem_map] at hc
    obtain ⟨c0, _, rfl⟩ := hc
    cases c0 <;> simp [fillEmptyCell]
  · exact (dedupKeepFirst_nodup _ []).1

/-- Concrete instance of the cleansing invariants: one missing numeric
cell is filled and the resulting duplicate row pair is collapsed. -/
theorem cleanse_no_missing_no_dups_witness :
    [Cell.Num 1] ∈ (cleanse_data (Table.mk ["a"] [Dtype.DFloat]
        [[Cell.NA], [Cell.Num 1]])).rows ∧
    Cell.Num 1 ∈ [Cell.Num 1] ∧
    ¬ Cell.Num 1 = Cell.NA ∧
    (cleanse_data (Table.mk ["a"] [Dtype.DFloat] [[Cell.NA], [Cell.Num 1]])).rows.Nodup := by
  refine ⟨by decide, by decide, ?_, ?_⟩
  · exact (cleanse_no_missing_no_dups (Table.mk ["a"] [Dtype.DFloat]
        [[Cell.NA], [Cell.Num 1]])).1 [Cell.Num 1] (by decide) (Cell.Num 1) (by decide)
  · exact (cleanse_no_missing_no_dups (Table.mk ["a"] [Dtype.DFloat]
        [[Cell.NA], [Cell.Num 1]])).2

/-- C10: `cleanse_data` keeps the column sequence unchanged and keeps the
surviving rows in their original relative order: its row list is a
subsequence of the filled input rows. -/
theorem cleanse_preserves_order (t : Table) :
    (cleanse_data t).cols = t.cols ∧
    (cleanse_data t).rows.Sublist
      (t.rows.map (fun r => (fillRowMed (tableMeds t) r).map fillEmptyCell)) := by
  refine ⟨rfl, ?_⟩
  have h := dedupKeepFirst_sublist [] (fillEmptyTable (fillMedianTable t)).rows
  simpa [cleanse_data, drop_duplicates, fillEmptyTable, fillMedianTable,
    List.map_map, Function.comp] using h

theorem fillCellMed_none (c : Cell) : fillCellMed none c = c := by
  cases c <;> rfl

theorem fillRowMed_getElem? (ms : List (Option ℚ)) (r : List Cell) (j : Nat) :
    (fillRowMed ms r)[j]? = (r[j]?).map (fillCellMed (ms.getD j none)) := by
  induction r generalizing ms j with
  | nil => cases ms <;> simp [fillRowMed]
  | cons c cs ih =>
    cases ms with
    | nil =>
      cases hj : (c :: cs)[j]? <;> simp [fillRowMed, hj, fillCellMed_none]
    | cons m ms2 =>
      cases j with
      | zero => simp [fillRowMed]
      | succ j2 => simpa [fillRowMed] using ih ms2 j2

theorem tableMeds_getD (t : Table) (j : Nat) (hj : j < t.cols.length) :
    (tableMeds t).getD j none =
      if isNumDtype (getColDtype t j) = true ∧ ¬ colNumVals t j = [] then
        some (median (colNumVals t j))
      else none := by
  simp [tableMeds, List.getD_eq_getElem?_getD, List.getElem?_map,
    List.getElem?_range hj]

/-- C4: in a numeric column with at least one non-missing value, the
median-fill pass of `cleanse_data` turns every missing cell into the
column's pre-fill median — the identical fill value for the whole
column. -/
theorem fillMedian_fills_with_median (t : Table)
    (hrows : ∀ r ∈ t.rows, r.length = t.cols.length)
    (j : Nat) (hj : j < t.cols.length)
    (hd : isNumDtype (getColDtype t j) = true)
    (hv : ¬ colNumVals t j = [])
    (i : Nat) (hna : (getColCells t j)[i]? = some Cell.NA) :
    cleanse_data t = drop_duplicates (fillEmptyTable (fillMedianTable t)) ∧
    (getColCells (fillMedianTable t) j)[i]? =
      some (Cell.Num (median (colNumVals t j))) := by
  refine ⟨rfl, ?_⟩
  simp only [getColCells, List.getElem?_map] at hna
  cases h : t.rows[i]? with
  | none => rw [h] at hna; simp at hna
  | some r =>
    rw [h] at hna
    simp only [Option.map_some'] at hna
    have hmem : r ∈ t.rows := by
      obtain ⟨hlt, he⟩ := List.getElem?_eq_some_iff.mp h
      exact he ▸ List.getElem_mem hlt
    have hjr : j < r.length := (hrows r hmem) ▸ hj
    have hrj : r[j]? = some Cell.NA := by
      have hgd : r.getD j Cell.NA = Cell.NA := Option.some.inj hna
      rw [List.getD_eq_getElem?_getD, List.getElem?_eq_getElem hjr] at hgd
      rw [List.getElem?_eq_getElem hjr]
      simp only [Option.getD_some] at hgd
      rw [hgd]
    have hmed : (tableMeds t).getD j none = some (median (colNumVals t j)) := by
      rw [tableMeds_getD t j hj, if_pos ⟨hd, hv⟩]
    simp only [getColCells, fillMedianTable, List.map_map, List.getElem?_map, h,
      Option.map_some', Function.comp_apply]
    rw [List.getD_eq_getElem?_getD, fillRowMed_getElem?, hrj, hmed]
    rfl

/-- Concrete instance of the median fill: the missing cell of a float64
column with values 1 and 3 becomes their median 2. -/
theorem fillMedian_fills_with_median_witness :
    (∀ r ∈ (Table.mk ["a"] [Dtype.DFloat]
        [[Cell.Num 1], [Cell.NA], [Cell.Num 3]]).rows, r.length = 1) ∧
    cleanse_data (Table.mk ["a"] [Dtype.DFloat] [[Cell.Num 1], [Cell.NA], [Cell.Num 3]]) =
      drop_duplicates (fillEmptyTable (fillMedianTable (Table.mk ["a"] [Dtype.DFloat]
        [[Cell.Num 1], [Cell.NA], [Cell.Num 3]]))) ∧
    (getColCells (fillMedianTable (Table.mk ["a"] [Dtype.DFloat]
        [[Cell.Num 1], [Cell.NA], [Cell.Num 3]])) 0)[1]? =
      some (Cell.Num (median (colNumVals (Table.mk ["a"] [Dtype.DFloat]
        [[Cell.Num 1], [Cell.NA], [Cell.Num 3]]) 0))) := by
  refine ⟨by decide, ?_, ?_⟩
  · exact (fillMedian_fills_with_median
      (Table.mk ["a"] [Dtype.DFloat] [[Cell.Num 1], [Cell.NA], [Cell.Num 3]])
      (by decide) 0 (by decide) (by decide) (by decide) 1 (by decide)).1
  · exact (fillMedian_fills_with_median
      (Table.mk ["a"] [Dtype.DFloat] [[Cell.Num 1], [Cell.NA], [Cell.Num 3]])
      (by decide) 0 (by decide) (by decide) (by decide) 1 (by decide)).2

theorem findAge_lt : ∀ (l : List String) (j : Nat), findAge l = some j → j < l.length := by
  intro l
  induction l with
  | nil => intro j h; simp [findAge] at h
  | cons c cs ih =>
    intro j h
    simp only [findAge] at h
    split at h
    · cases h; simp
    · cases hr : findAge cs with
      | none => rw [hr] at h; simp at h
      | some j2 =>
        rw [hr] at h
        simp only [Option.map_some'] at h
        cases h
        exact Nat.succ_lt_succ (ih j2 hr)

/-- C5: a table whose "age" column holds at least one non-integer value
fails `validate_data` with the type-rule message; the type rule is checked
before the range rule, so the range error is never the reported one. -/
theorem validate_nonint_age_type_error (t : Table) (hwf : WF t) (j : Nat)
    (hj : findAge t.cols = some j)
    (c : Cell) (hc : c ∈ getColCells t j) (hni : cellIsIntB c = false) :
    validate_data t = Except.error (PipeErr.validationError ageTypeMsg) := by
  have hjl : j < t.cols.length := findAge_lt t.cols j hj
  have hdt : ¬ getColDtype t j = Dtype.DInt := by
    intro hd
    have hall := (hwf.2.2.2 j hjl).1 hd
    rw [List.all_eq_true] at hall
    exact absurd (hall c hc) (by simp [hni])
  simp only [validate_data, hj]
  rw [if_pos hdt]

/-- Concrete instance of the age type rule: a float64 age column holding
5/2 is rejected with the type message. -/
theorem validate_nonint_age_type_error_witness :
    WF (Table.mk ["age"] [Dtype.DFloat] [[Cell.Num 3], [Cell.Num (5 / 2)]]) ∧
    findAge ["age"] = some 0 ∧
    Cell.Num (5 / 2) ∈
      getColCells (Table.mk ["age"] [Dtype.DFloat] [[Cell.Num 3], [Cell.Num (5 / 2)]]) 0 ∧
    cellIsIntB (Cell.Num (5 / 2)) = false ∧
    validate_data (Table.mk ["age"] [Dtype.DFloat] [[Cell.Num 3], [Cell.Num (5 / 2)]]) =
      Except.error (PipeErr.validationError ageTypeMsg) := by
  refine ⟨?_, by decide, by with_unfolding_all decide, by with_unfolding_all decide, ?_⟩
  · exact ⟨by decide, by decide, by decide, by with_unfolding_all decide⟩
  · exact validate_nonint_age_type_error
      (Table.mk ["age"] [Dtype.DFloat] [[Cell.Num 3], [Cell.Num (5 / 2)]])
      ⟨by decide, by decide, by decide, by with_unfolding_all decide⟩ 0 (by decide)
      (Cell.Num (5 / 2)) (by with_unfolding_all decide) (by with_unfolding_all decide)

theorem cleanse_dtype (t : Table) (j : Nat) (hj : j < t.cols.length) :
    getColDtype (cleanse_data t) j = Dtype.DObj ∨
    getColDtype (cleanse_data t) j = getColDtype t j := by
  simp only [cleanse_data, drop_duplicates, fillEmptyTable, fillMedianTable, getColDtype]
  rw [List.getD_eq_getElem?_getD, List.getElem?_map, List.getElem?_range hj]
  simp only [Option.map_some', Option.getD_some]
  split
  · exact Or.inl rfl
  · exact Or.inr rfl

/-- C9: when the "age" column of a well-formed input table has a missing
value, the cleansed table still fails `validate_data` with the type error:
the column's dtype was not int64 going in (int64 columns cannot hold NaN)
and cleansing never turns a column into int64, while the validator
inspects the dtype, not the filled values. -/
theorem missing_age_values_force_type_error (t : Table) (hwf : WF t) (j : Nat)
    (hj : findAge t.cols = some j)
    (hna : Cell.NA ∈ getColCells t j) :
    validate_data (cleanse_data t) =
      Except.error (PipeErr.validationError ageTypeMsg) := by
  have hjl : j < t.cols.length := findAge_lt t.cols j hj
  have hdt0 : ¬ getColDtype t j = Dtype.DInt := by
    intro hd
    have hall := (hwf.2.2.2 j hjl).1 hd
    rw [List.all_eq_true] at hall
    simpa [cellIsIntB] using hall Cell.NA hna
  have hcols : (cleanse_data t).cols = t.cols := rfl
  have hdt : ¬ getColDtype (cleanse_data t) j = Dtype.DInt := by
    rcases cleanse_dtype t j hjl with h | h
    · rw [h]; simp
    · rw [h]; exact hdt0
  simp only [validate_data, hcols, hj]
  rw [if_pos hdt]

/-- Concrete instance: an age column loaded as float64 because of one
missing value still fails validation after its cell is median-filled. -/
theorem missing_age_values_force_type_error_witness :
    WF (Table.mk ["age"] [Dtype.DFloat] [[Cell.NA], [Cell.Num 2]]) ∧
    findAge ["age"] = some 0 ∧
    Cell.NA ∈ getColCells (Table.mk ["age"] [Dtype.DFloat] [[Cell.NA], [Cell.Num 2]]) 0 ∧
    validate_data (cleanse_data (Table.mk ["age"] [Dtype.DFloat] [[Cell.NA], [Cell.Num 2]])) =
      Except.error (PipeErr.validationError ageTypeMsg) := by
  refine ⟨⟨by decide, by decide, by decide, by decide⟩, by decide, by decide, ?_⟩
  exact missing_age_values_force_type_error
    (Table.mk ["age"] [Dtype.DFloat] [[Cell.NA], [Cell.Num 2]])
    ⟨by decide, by decide, by decide, by decide⟩ 0 (by decide) (by decide)

/-- C1: `process_pipeline` never propagates a failure to its caller: for
every file system, every output-path writability and every pair of paths,
the run ends in one of exactly two shapes — a clean run that invoked all
five stages, logged no error and saved an output, or an absorbed failure
that logged the raising stage's error, saved nothing, and never invoked
the stages after the failing one (failure at load leaves only load
invoked, failure at validation leaves the first four, failure of the save
write leaves all five with nothing saved). -/
theorem process_pipeline_absorbs_failures (fs : String → Option String)
    (writable : String → Bool) (input output : String) :
    ((process_pipeline fs writable input output).logged = none ∧
      (process_pipeline fs writable input output).invoked =
        [Stage.load, Stage.standardize, Stage.cleanse, Stage.validate, Stage.save] ∧
      ∃ t, (process_pipeline fs writable input output).saved = some (output, t)) ∨
    (∃ e, (process_pipeline fs writable input output).logged = some e ∧
      (process_pipeline fs writable input output).saved = none ∧
      ((process_pipeline fs writable input output).invoked = [Stage.load] ∨
        (process_pipeline fs writable input output).invoked =
          [Stage.load, Stage.standardize, Stage.cleanse, Stage.validate] ∨
        (process_pipeline fs writable input output).invoked =
          [Stage.load, Stage.standardize, Stage.cleanse, Stage.validate, Stage.save])) := by
  cases h1 : load_data fs input with
  | error e =>
    right
    refine ⟨e, ?_, ?_, Or.inl ?_⟩ <;> simp [process_pipeline, h1]
  | ok d0 =>
    cases h2 : validate_data (cleanse_data (standardize_column_names d0)) with
    | error e =>
      right
      refine ⟨e, ?_, ?_, Or.inr (Or.inl ?_)⟩ <;> simp [process_pipeline, h1, h2]
    | ok u =>
      cases h3 : save_data writable (cleanse_data (standardize_column_names d0)) output with
      | error e =>
        right
        refine ⟨e, ?_, ?_, Or.inr (Or.inr ?_)⟩ <;> simp [process_pipeline, h1, h2, h3]
      | ok r =>
        left
        have hr : r = (output, cleanse_data (standardize_column_names d0)) := by
          unfold save_data at h3
          by_cases hw : writable output = true
          · rw [if_pos hw] at h3
            exact (Except.ok.inj h3).symm
          · rw [if_neg hw] at h3
            exact absurd h3 (by simp)
        refine ⟨?_, ?_, ⟨cleanse_data (standardize_column_names d0), ?_⟩⟩ <;>
          simp [process_pipeline, h1, h2, h3, hr]

/-- C8: a path absent from the file system makes `load_data` return the
not-found error (re-raised, not swallowed); whatever the writability of
the output path, the orchestrator logs exactly that error, writes no
output, and runs no stage after the loader. -/
theorem missing_input_notFound_no_output (fs : String → Option String)
    (writable : String → Bool) (input output : String) (h : fs input = none) :
    load_data fs input = Except.error (PipeErr.notFound input) ∧
    (process_pipeline fs writable input output).logged =
      some (PipeErr.notFound input) ∧
    (process_pipeline fs writable input output).saved = none ∧
    (process_pipeline fs writable input output).invoked = [Stage.load] := by
  have hl : load_data fs input = Except.error (PipeErr.notFound input) := by
    simp [load_data, h]
  refine ⟨hl, ?_, ?_, ?_⟩ <;> simp [process_pipeline, hl]

/-- Concrete instance of the missing-input behavior on an empty file
system. -/
theorem missing_input_notFound_no_output_witness :
    (fun _ : String => (none : Option String)) "input_data.csv" = none ∧
    load_data (fun _ => none) "input_data.csv" =
      Except.error (PipeErr.notFound "input_data.csv") ∧
    (process_pipeline (fun _ => none) (fun _ => true)
      "input_data.csv" "output_data.csv").logged =
      some (PipeErr.notFound "input_data.csv") ∧
    (process_pipeline (fun _ => none) (fun _ => true)
      "input_data.csv" "output_data.csv").saved = none ∧
    (process_pipeline (fun _ => none) (fun _ => true)
      "input_data.csv" "output_data.csv").invoked = [Stage.load] := by
  refine ⟨rfl, ?_⟩
  have h := missing_input_notFound_no_output (fun _ => none) (fun _ => true)
    "input_data.csv" "output_data.csv" rfl
  exact ⟨h.1, h.2.1, h.2.2.1, h.2.2.2⟩

/-- Input file with an age column holding -1 and 2.5: pandas loads it as
float64. -/
def csvNegAge : String := "age\n-1\n2.5\n"

/-- File system holding only `csvNegAge`. -/
def fsNegAge : String → Option String :=
  fun p => if p = "in.csv" then some csvNegAge else none

/-- The table `csvNegAge` loads to. -/
def tNegAge : Table :=
  Table.mk ["age"] [Dtype.DFloat] [[Cell.Num (-1)], [Cell.Num (mkRat 5 2)]]

/-- C6 counterexample: an input whose age column contains -1 (next to the
float 2.5, so the column is float64) fails validation with the type error,
not the negative-value error the claim promises. -/
theorem neg_age_not_always_negative_error :
    load_data fsNegAge "in.csv" = Except.ok tNegAge ∧
    Cell.Num (-1) ∈ getColCells tNegAge 0 ∧
    (process_pipeline fsNegAge (fun _ => true) "in.csv" "out.csv").logged =
      some (PipeErr.validationError ageTypeMsg) ∧
    ¬ (process_pipeline fsNegAge (fun _ => true) "in.csv" "out.csv").logged =
      some (PipeErr.validationError ageNegMsg) := by
  with_unfolding_all decide

/-- C6 (amended): for every input whose age column (as the validator sees
it, after standardize and cleanse) contains -1, validation fails and the
pipeline halts with no output; the reported error is the negative-value
message exactly when the column is int64, and otherwise it is the
integer-type message. -/
theorem neg_age_halts_pipeline (fs : String → Option String)
    (writable : String → Bool) (input output : String) (t : Table)
    (ht : load_data fs input = Except.ok t) (j : Nat)
    (hj : findAge (cleanse_data (standardize_column_names t)).cols = some j)
    (hmem : Cell.Num (-1) ∈ getColCells (cleanse_data (standardize_column_names t)) j) :
    (process_pipeline fs writable input output).saved = none ∧
    (∃ m, (process_pipeline fs writable input output).logged =
      some (PipeErr.validationError m)) ∧
    (¬ getColDtype (cleanse_data (standardize_column_names t)) j = Dtype.DInt →
      (process_pipeline fs writable input output).logged =
        some (PipeErr.validationError ageTypeMsg)) ∧
    ((process_pipeline fs writable input output).logged =
        some (PipeErr.validationError ageNegMsg) ↔
      getColDtype (cleanse_data (standardize_column_names t)) j = Dtype.DInt) := by
  have hneg : (getColCells (cleanse_data (standardize_column_names t)) j).any cellNeg = true := by
    rw [List.any_eq_true]
    exact ⟨Cell.Num (-1), hmem, by with_unfolding_all decide⟩
  by_cases hdt : getColDtype (cleanse_data (standardize_column_names t)) j = Dtype.DInt
  · have hv : validate_data (cleanse_data (standardize_column_names t)) =
        Except.error (PipeErr.validationError ageNegMsg) := by
      simp only [validate_data, hj]
      rw [if_neg (fun hc => hc hdt), if_pos hneg]
    refine ⟨?_, ⟨ageNegMsg, ?_⟩, fun hc => absurd hdt hc, ?_, fun _ => ?_⟩ <;>
      simp [process_pipeline, ht, hv, hdt]
  · have hv : validate_data (cleanse_data (standardize_column_names t)) =
        Except.error (PipeErr.validationError ageTypeMsg) := by
      simp only [validate_data, hj]
      rw [if_pos hdt]
    have hL : (process_pipeline fs writable input output).logged =
        some (PipeErr.validationError ageTypeMsg) := by
      simp [process_pipeline, ht, hv]
    refine ⟨?_, ⟨ageTypeMsg, hL⟩, fun _ => hL, ?_, fun hd => absurd hd hdt⟩
    · simp [process_pipeline, ht, hv]
    · intro hcontra
      rw [hL] at hcontra
      exact absurd hcontra (by decide)

/-- Input file whose age column is all integer literals including -1, so
pandas loads it as int64. -/
def csvIntNegAge : String := "age\n-1\n3\n"

/-- File system holding only `csvIntNegAge`. -/
def fsIntNegAge : String → Option String :=
  fun p => if p = "in.csv" then some csvIntNegAge else none

/-- The table `csvIntNegAge` loads to. -/
def tIntNegAge : Table :=
  Table.mk ["age"] [Dtype.DInt] [[Cell.Num (-1)], [Cell.Num 3]]

/-- Concrete instance of the amended C6: an int64 age column containing -1
halts the pipeline with the negative-value error and no output. -/
theorem neg_age_halts_pipeline_witness :
    load_data fsIntNegAge "in.csv" = Except.ok tIntNegAge ∧
    findAge (cleanse_data (standardize_column_names tIntNegAge)).cols = some 0 ∧
    Cell.Num (-1) ∈ getColCells (cleanse_data (standardize_column_names tIntNegAge)) 0 ∧
    (process_pipeline fsIntNegAge (fun _ => true) "in.csv" "out.csv").saved = none ∧
    (∃ m, (process_pipeline fsIntNegAge (fun _ => true) "in.csv" "out.csv").logged =
      some (PipeErr.validationError m)) ∧
    (¬ getColDtype (cleanse_data (standardize_column_names tIntNegAge)) 0 = Dtype.DInt →
      (process_pipeline fsIntNegAge (fun _ => true) "in.csv" "out.csv").logged =
        some (PipeErr.validationError ageTypeMsg)) ∧
    ((process_pipeline fsIntNegAge (fun _ => true) "in.csv" "out.csv").logged =
        some (PipeErr.validationError ageNegMsg) ↔
      getColDtype (cleanse_data (standardize_column_names tIntNegAge)) 0 = Dtype.DInt) := by
  refine ⟨by with_unfolding_all decide, by with_unfolding_all decide,
    by with_unfolding_all decide, ?_⟩
  exact neg_age_halts_pipeline fsIntNegAge (fun _ => true) "in.csv" "out.csv" tIntNegAge
    (by with_unfolding_all decide) 0 (by with_unfolding_all decide)
    (by with_unfolding_all decide)

/-- The end-to-end example input of the specification: header
`" Name , Age "`, rows `Alice,30` and `alice,` (missing age). -/
def csvExample : String := " Name , Age \nAlice,30\nalice,\n"

/-- File system holding only `csvExample` under the pipeline's input
path. -/
def fsExample : String → Option String :=
  fun p => if p = "input_data.csv" then some csvExample else none

/-- The cleansed table the example input reaches validation with: columns
standardized, the missing age median-filled with 30, both rows kept. -/
def tExample : Table :=
  Table.mk ["name", "age"] [Dtype.DObj, Dtype.DFloat]
    [[Cell.Str "Alice", Cell.Num 30], [Cell.Str "alice", Cell.Num 30]]

/-- C2 counterexample: on the specification's end-to-end example input the
pipeline does not succeed — it saves nothing and logs the age type
error (the median fill left the age column float64). -/
theorem endToEnd_example_fails_validation :
    (process_pipeline fsExample (fun _ => true) "input_data.csv" "output_data.csv").saved = none ∧
    (process_pipeline fsExample (fun _ => true) "input_data.csv" "output_data.csv").logged =
      some (PipeErr.validationError ageTypeMsg) := by
  with_unfolding_all decide

/-- C2 (amended): on the example input the cleansing part behaves as
claimed — header `name,age`, the previously-missing age equals the column
median 30, no duplicate rows — but the pipeline then halts at validation
with the age type error and writes no output. -/
theorem endToEnd_example_halts_with_type_error :
    (load_data fsExample "input_data.csv").map
      (fun d => cleanse_data (standardize_column_names d)) = Except.ok tExample ∧
    tExample.cols = ["name", "age"] ∧
    getColCells tExample 1 = [Cell.Num 30, Cell.Num 30] ∧
    (load_data fsExample "input_data.csv").map
      (fun d => median (colNumVals (standardize_column_names d) 1)) =
        Except.ok 30 ∧
    tExample.rows.Nodup ∧
    (process_pipeline fsExample (fun _ => true) "input_data.csv" "output_data.csv").saved = none ∧
    (process_pipeline fsExample (fun _ => true) "input_data.csv" "output_data.csv").logged =
      some (PipeErr.validationError ageTypeMsg) := by
  with_unfolding_all decide

theorem upperLower_snd_facts :
    ∀ p ∈ upperLower, pyLowerChar p.2 = p.2 ∧ pyIsSpace p.2 = false ∧ ¬ p.2 = ' ' := by
  decide

theorem pyLowerChar_cases (c : Char) :
    pyLowerChar c = c ∨ ∃ p, p ∈ upperLower ∧ pyLowerChar c = p.2 := by
  cases h : upperLower.find? (fun p => p.1 == c) with
  | none => left; simp [pyLowerChar, h]
  | some p =>
    right
    exact ⟨p, List.mem_of_find?_eq_some h, by simp [pyLowerChar, h]⟩

theorem pyLowRepl_idem (c : Char) : pyLowRepl (pyLowRepl c) = pyLowRepl c := by
  rcases pyLowerChar_cases c with h | ⟨p, hp, h⟩
  · by_cases hsp : c = ' '
    · subst hsp; decide
    · have h1 : pyLowRepl c = c := by simp [pyLowRepl, pyReplChar, h, hsp]
      rw [h1]
      exact h1
  · have hf := upperLower_snd_facts p hp
    have h1 : pyLowRepl c = p.2 := by simp [pyLowRepl, pyReplChar, h, hf.2.2]
    have h2 : pyLowRepl p.2 = p.2 := by
      simp [pyLowRepl, pyReplChar, hf.1, hf.2.2]
    rw [h1, h2]

theorem pyLowRepl_not_space (c : Char) (h : pyIsSpace c = false) :
    pyIsSpace (pyLowRepl c) = false := by
  rcases pyLowerChar_cases c with hc | ⟨p, hp, hc⟩
  · have hsp : ¬ c = ' ' := by
      intro he
      subst he
      simp [pyIsSpace] at h
    simpa [pyLowRepl, pyReplChar, hc, hsp] using h
  · have hf := upperLower_snd_facts p hp
    simp [pyLowRepl, pyReplChar, hc, hf.2.2, hf.2.1]

theorem dropWhile_head_not_space (l : List Char) (c : Char)
    (hc : (l.dropWhile pyIsSpace).head? = some c) : pyIsSpace c = false := by
  have h := List.head?_dropWhile_not pyIsSpace l
  rw [hc] at h
  exact h

theorem dropWhile_self_of_head (l : List Char)
    (h : ∀ c, l.head? = some c → pyIsSpace c = false) :
    l.dropWhile pyIsSpace = l := by
  cases l with
  | nil => rfl
  | cons c cs => simp [List.dropWhile_cons, h c rfl]

theorem strip_head_not_space (l : List Char) (c : Char)
    (hc : (pyStripList l).head? = some c) : pyIsSpace c = false := by
  unfold pyStripList at hc
  rw [List.head?_reverse] at hc
  obtain ⟨tpre, heq⟩ :=
    List.dropWhile_suffix (l := (l.dropWhile pyIsSpace).reverse) pyIsSpace
  have hX : ((l.dropWhile pyIsSpace).reverse).getLast? = some c := by
    rw [← heq, List.getLast?_append, hc]
    rfl
  rw [List.getLast?_reverse] at hX
  exact dropWhile_head_not_space l c hX

theorem strip_last_not_space (l : List Char) (c : Char)
    (hc : (pyStripList l).getLast? = some c) : pyIsSpace c = false := by
  unfold pyStripList at hc
  rw [List.getLast?_reverse] at hc
  exact dropWhile_head_not_space _ c hc

theorem strip_noop (m : List Char)
    (h1 : ∀ c, m.head? = some c → pyIsSpace c = false)
    (h2 : ∀ c, m.getLast? = some c → pyIsSpace c = false) :
    pyStripList m = m := by
  unfold pyStripList
  rw [dropWhile_self_of_head m h1]
  have h3 : m.reverse.dropWhile pyIsSpace = m.reverse := by
    apply dropWhile_self_of_head
    intro c hc
    rw [List.head?_reverse] at hc
    exact h2 c hc
  rw [h3, List.reverse_reverse]

theorem stdChars_idem (l : List Char) :
    (pyStripList ((pyStripList l).map pyLowRepl)).map pyLowRepl
      = (pyStripList l).map pyLowRepl := by
  have hstrip : pyStripList ((pyStripList l).map pyLowRepl)
      = (pyStripList l).map pyLowRepl := by
    apply strip_noop
    · intro c hc
      rw [List.head?_map] at hc
      cases hh : (pyStripList l).head? with
      | none => rw [hh] at hc; simp at hc
      | some c0 =>
        rw [hh] at hc
        simp only [Option.map_some'] at hc
        have hcc := Option.some.inj hc
        rw [← hcc]
        exact pyLowRepl_not_space c0 (strip_head_not_space l c0 hh)
    · intro c hc
      rw [List.getLast?_map] at hc
      cases hh : (pyStripList l).getLast? with
      | none => rw [hh] at hc; simp at hc
      | some c0 =>
        rw [hh] at hc
        simp only [Option.map_some'] at hc
        have hcc := Option.some.inj hc
        rw [← hcc]
        exact pyLowRepl_not_space c0 (strip_last_not_space l c0 hh)
  rw [hstrip, List.map_map]
  have hcomp : pyLowRepl ∘ pyLowRepl = pyLowRepl := funext pyLowRepl_idem
  rw [hcomp]

theorem standardizeName_idem (s : String) :
    standardizeName (standardizeName s) = standardizeName s := by
  have hm : ∀ (l : List Char), (l.map pyLowerChar).map pyReplChar = l.map pyLowRepl :=
    fun l => by rw [List.map_map]; rfl
  unfold standardizeName
  simp only [hm]
  exact congrArg String.mk (stdChars_idem s.data)

/-- C7: `standardize_column_names` is idempotent — a second application
changes nothing, because a standardized name has no leading or trailing
whitespace, no uppercase ASCII letters and no spaces left. -/
theorem standardize_idempotent (t : Table) :
    standardize_column_names (standardize_column_names t) =
      standardize_column_names t := by
  simp only [standardize_column_names]
  congr 1
  rw [List.map_map]
  have h : standardizeName ∘ standardizeName = standardizeName :=
    funext standardizeName_idem
  rw [h]

end DataClean
